import Mathlib

/-!
Shallow embedding of the AGRO_X_CHRONOS repository
(`src/argo_Indian_202303/data.py` and `src/argo_Indian_202303/chatbot.py`).

The ETL pipeline in `data.py` is a linear script:
catalog fetch → spatial-temporal filter → FTP download loop →
per-file flattening with quality-control filtering → concatenation →
CSV write → MySQL truncate-and-load.  External effects (FTP transfers,
the filesystem, the MySQL server, the SQL agent) are modelled as explicit
state or as oracles describing what the external service would do.
-/

namespace Argo

/-! ## Spatial-temporal filter (data.py lines 14-17, 71-75)

A catalog row of the global ARGO index (`ar_index_global_prof.txt.gz`)
carries a relative file path, latitude, longitude and an observation
timestamp.  `latitude`/`longitude` are modelled as rationals (the script
only ever compares them), and the parsed datetime as an integer timestamp
(pandas datetimes are totally ordered; only `≥`/`≤` comparisons occur).
-/

structure CatalogRow where
  file : String
  latitude : Rat
  longitude : Rat
  date : Int
deriving DecidableEq

/-- The configured bounds (module-level parameters `lat_min`, `lat_max`,
`lon_min`, `lon_max`, `start_date`, `end_date` of `data.py`). -/
structure FilterParams where
  lat_min : Rat
  lat_max : Rat
  lon_min : Rat
  lon_max : Rat
  start_date : Int
  end_date : Int

/-- The concrete parameter values of `data.py` lines 14-17, with the two
date strings abstracted to their (ordered) timestamps: day offsets of
2023-03-01 and 2023-03-31 from an arbitrary epoch. -/
def defaultParams : FilterParams :=
  { lat_min := -5, lat_max := 5, lon_min := 60, lon_max := 80,
    start_date := 19417, end_date := 19447 }

/-- The boolean conjunction of the six comparisons of `data.py` lines 72-74:
`(latitude >= lat_min) & (latitude <= lat_max) & (longitude >= lon_min) &
(longitude <= lon_max) & (date >= start_date) & (date <= end_date)`. -/
def inWindow (p : FilterParams) (r : CatalogRow) : Bool :=
  (p.lat_min ≤ r.latitude) && (r.latitude ≤ p.lat_max) &&
  (p.lon_min ≤ r.longitude) && (r.longitude ≤ p.lon_max) &&
  (p.start_date ≤ r.date) && (r.date ≤ p.end_date)

/-- Model of `filtered = df_index[ ... ].copy()` (data.py lines 71-75): the subset of
catalog rows whose coordinates and date satisfy all six bound conditions. -/
def filtered (p : FilterParams) (df_index : List CatalogRow) : List CatalogRow :=
  df_index.filter (inWindow p)

/-! ## Query interface (chatbot.py lines 54-62)

`response.get("output", "Sorry, I couldn't find an answer.")`: the agent's
response is a string-keyed dictionary; the displayed answer is the value at
key `"output"` when present, else the fixed fallback string.
-/

/-- The fixed fallback string of `chatbot.py` line 58. -/
def fallbackAnswer : String := "Sorry, I couldn't find an answer."

/-- Model of `answer = response.get("output", "Sorry, I couldn't find an answer.")`
(chatbot.py line 58), with the agent's response dictionary modelled as an
association list. -/
def displayedAnswer (response : List (String × String)) : String :=
  match response.lookup "output" with
  | some v => v
  | none => fallbackAnswer

/-! ## Loader (data.py lines 158-171)

The three SQL statements executed against MySQL:
`CREATE TABLE IF NOT EXISTS argo_profiles (...)`,
`TRUNCATE TABLE argo_profiles;`, and
`LOAD DATA LOCAL INFILE ... IGNORE 1 ROWS ...`.
The table state is the list of its rows (each a list of field strings,
in CSV order); the CSV file is its list of lines, header first.
-/

/-- One line of the intermediate delimited file, already split into its
seven fields. -/
abbrev CsvRow := List String

/-- MySQL state relevant to the loader: whether `argo_profiles` exists and
the list of its rows. -/
structure MySQLState where
  tableExists : Bool
  rows : List CsvRow
deriving DecidableEq

/-- The loader statements of `data.py` lines 158-170. -/
inductive LoaderStmt where
  | createTableIfNotExists
  | truncateTable
  | loadDataSkipHeader (csvLines : List CsvRow)
deriving DecidableEq

/-- Effect of one loader statement on the MySQL state:
`CREATE TABLE IF NOT EXISTS` leaves existing rows alone,
`TRUNCATE TABLE` removes every row,
`LOAD DATA ... IGNORE 1 ROWS` appends the file's lines minus the header. -/
def execStmt (s : MySQLState) : LoaderStmt → MySQLState
  | .createTableIfNotExists => { s with tableExists := true }
  | .truncateTable => { s with rows := [] }
  | .loadDataSkipHeader csvLines => { s with rows := s.rows ++ csvLines.drop 1 }

/-- The statement sequence one run of the loader executes
(data.py lines 158, 166, 170, in source order). -/
def loaderScript (csvLines : List CsvRow) : List LoaderStmt :=
  [.createTableIfNotExists, .truncateTable, .loadDataSkipHeader csvLines]

/-- One run of STEP G of `data.py` against a MySQL state, given the
contents of `argo_processed.csv`. -/
def runLoader (s : MySQLState) (csvLines : List CsvRow) : MySQLState :=
  (loaderScript csvLines).foldl execStmt s

/-! ## File retriever (data.py lines 28-45 and 81-96)

The local filesystem is the association of destination paths to byte
contents.  What the remote FTP server would do for a given entry is an
oracle: either the whole file streams successfully, or the connection /
login / `cwd` fails before `open(dest, "wb")` runs (no local file is
touched), or the transfer fails after the destination has been opened for
writing, leaving whatever bytes were written so far at the destination
(`open(dest, "wb")` creates/truncates the file before `retrbinary`). -/

/-- Local filesystem: destination path → file bytes (`none` = no file). -/
structure FS where
  files : String → Option (List Nat)

/-- Model of `os.path.exists(dest)`. -/
def FS.exists (fs : FS) (path : String) : Bool :=
  (fs.files path).isSome

/-- Contents at a path, if the file exists. -/
def FS.read (fs : FS) (path : String) : Option (List Nat) :=
  fs.files path

/-- Writing a file: the path now maps to the given bytes. -/
def FS.write (fs : FS) (path : String) (content : List Nat) : FS :=
  ⟨fun q => if q = path then some content else fs.files q⟩

/-- Oracle for what the FTP interaction of `download_file_ftp` would do for
one entry. -/
inductive FtpOutcome where
  | ok (content : List Nat)
  | connectFail
  | transferFail (written : List Nat)
deriving DecidableEq

/-- Model of `download_file_ftp(file_url, dest_path)` (data.py lines 28-45): connect,
login, `cwd`, then `open(dest_path, "wb")` and stream.  Returns `True` and
the full file on success; `False` with the filesystem untouched when the
connection phase raises before the destination is opened; `False` with a
partially-written destination file when `retrbinary` raises mid-transfer
(the exception handler deletes nothing). -/
def download_file_ftp (fs : FS) (outcome : FtpOutcome) (dest_path : String) :
    Bool × FS :=
  match outcome with
  | .ok content => (true, fs.write dest_path content)
  | .connectFail => (false, fs)
  | .transferFail written => (false, fs.write dest_path written)

/-- One selected catalog entry as the download loop sees it: its computed
destination path `dest = os.path.join(download_folder, fname)` and the FTP
oracle for its URL. -/
structure Entry where
  dest : String
  ftp : FtpOutcome
deriving DecidableEq

/-- STEP E of `data.py` (lines 81-96): iterate over the filtered entries;
if the destination already exists, append it to `downloaded_files` without
downloading; otherwise call `download_file_ftp` and append the destination
only when it returned `True`.  Returns the final filesystem and
`downloaded_files`. -/
def runRetriever (fs : FS) : List Entry → FS × List String
  | [] => (fs, [])
  | e :: rest =>
    if fs.exists e.dest then
      let r := runRetriever fs rest
      (r.1, e.dest :: r.2)
    else
      match download_file_ftp fs e.ftp e.dest with
      | (true, fs') =>
        let r := runRetriever fs' rest
        (r.1, e.dest :: r.2)
      | (false, fs') => runRetriever fs' rest

/-- Whether an entry would be kept in `downloaded_files` given the
filesystem at the moment the loop reaches it: it is already present, or its
download succeeds. -/
def keptEntry (fs : FS) (e : Entry) : Bool :=
  fs.exists e.dest || (match e.ftp with | .ok _ => true | _ => false)

/-- A one-file filesystem holding `argo_data_downloads/a.nc`. -/
def fsWithA : FS :=
  ⟨fun q => if q = "argo_data_downloads/a.nc" then some [7, 7] else none⟩

/-- The empty filesystem. -/
def fsEmpty : FS := ⟨fun _ => none⟩

/-! ## Profile flattener (data.py lines 101-129)

`process_nc_file` opens a NetCDF dataset and flattens it.  The dataset is
modelled by its arrays: `PLATFORM_NUMBER` (scalar), `JULD`, `LATITUDE`,
`LONGITUDE` (per profile), `PRES` and per-variable value / quality-control
arrays (per profile and level), the two dimensions `N_PROF` and `N_LEVELS`,
and the membership test `qc_var in ds`.  Numeric values are modelled as
integers — the script never computes with them, it only copies them into
records.  A record (a Python dict built at lines 117-124) is an ordered
association list of field name to value; inserting an existing key
overwrites it in place, matching dict assignment. -/

/-- A value stored in a record: the float identifier string or a number. -/
inductive FieldValue where
  | str (s : String)
  | num (x : Int)
deriving DecidableEq

/-- One flattened record: the Python dict as an ordered association list. -/
abbrev NcRecord := List (String × FieldValue)

/-- Model of Python's `str.lower()` as used on variable names
(`var.lower()`, data.py line 124). -/
def pyLower (s : String) : String := ⟨s.data.map Char.toLower⟩

/-- Python dict assignment `record[k] = v`: overwrite the key in place if
present, else append it. -/
def dictInsert : NcRecord → String → FieldValue → NcRecord
  | [], k, v => [(k, v)]
  | (k', v') :: rest, k, v =>
    if k' = k then (k, v) :: rest else (k', v') :: dictInsert rest k v

/-- The parsed NetCDF dataset as `process_nc_file` reads it. -/
structure NcDataset where
  platform_number : String
  juld : Nat → Int
  latitude : Nat → Int
  longitude : Nat → Int
  pres : Nat → Nat → Int
  n_prof : Nat
  n_levels : Nat
  hasVar : String → Bool
  dataVal : String → Nat → Nat → Int
  qcVal : String → Nat → Nat → Char

/-- The QC test of `data.py` line 123: the flag byte is `b'1'` or `b'2'`. -/
def acceptedQC (c : Char) : Bool := c = '1' || c = '2'

/-- The guard of `data.py` line 123:
`qc_var in ds and ds[qc_var].values[i, j] in [b'1', b'2']`. -/
def varAccepted (ds : NcDataset) (var : String) (i j : Nat) : Bool :=
  ds.hasVar (var ++ "_QC") && acceptedQC (ds.qcVal (var ++ "_QC") i j)

/-- The five mandatory fields of `data.py` lines 117-120, in insertion
order: float identifier, date, latitude, longitude, depth. -/
def baseRecord (ds : NcDataset) (i j : Nat) : NcRecord :=
  [("float_id", .str ds.platform_number), ("date", .num (ds.juld i)),
   ("latitude", .num (ds.latitude i)), ("longitude", .num (ds.longitude i)),
   ("depth", .num (ds.pres i j))]

/-- The keys of the five mandatory fields. -/
def mandatoryKeys : List String :=
  ["float_id", "date", "latitude", "longitude", "depth"]

/-- The record built for one (profile, level) pair (data.py lines 117-124):
start from the five mandatory fields, then for each requested variable add
`record[var.lower()] = float(ds[var].values[i, j])` exactly when its QC
guard passes. -/
def buildRecord (ds : NcDataset) (vars_to_keep : List String) (i j : Nat) :
    NcRecord :=
  vars_to_keep.foldl
    (fun record var =>
      if varAccepted ds var i j then
        dictInsert record (pyLower var) (.num (ds.dataVal var i j))
      else record)
    (baseRecord ds i j)

/-- The optional tail of a record: one `(var.lower(), value)` pair per
requested variable whose QC guard passes at this (profile, level) pair, in
request order.  Used to state what `buildRecord` produces. -/
def extraPart (ds : NcDataset) (vars : List String) (i j : Nat) : NcRecord :=
  (vars.filter (fun v => varAccepted ds v i j)).map
    (fun v => (pyLower v, FieldValue.num (ds.dataVal v i j)))

/-- The nested loop of `data.py` lines 114-127 over an opened dataset:
every (profile, level) record, kept only when `len(record) > 5`. -/
def process_open (ds : NcDataset) (vars_to_keep : List String) :
    List NcRecord :=
  ((List.range ds.n_prof).map (fun i =>
    ((List.range ds.n_levels).map (fun j => buildRecord ds vars_to_keep i j)).filter
      (fun record => 5 < record.length))).flatten

/-- Model of `process_nc_file` (data.py lines 101-129): `xr.open_dataset` either
yields a dataset or raises; a raise is caught and the function returns an
empty frame. -/
def process_nc_file (openResult : Except String NcDataset)
    (vars_to_keep : List String) : List NcRecord :=
  match openResult with
  | .error _ => []
  | .ok ds => process_open ds vars_to_keep

/-- The default `vars_to_keep=["TEMP", "PSAL"]` of `data.py` line 101. -/
def defaultVars : List String := ["TEMP", "PSAL"]

/-- The loop of `data.py` lines 131-136: flatten each downloaded file and
collect the non-empty results, in order. -/
def flatten_all : List (Except String NcDataset) → List String →
    List (List NcRecord)
  | [], _ => []
  | res :: rest, vars_to_keep =>
    let df := process_nc_file res vars_to_keep
    if df.isEmpty then flatten_all rest vars_to_keep
    else df :: flatten_all rest vars_to_keep

/-- What the script does after flattening (data.py lines 138-147): either
the fatal `exit()` with its message, or the concatenated, column-renamed
dataset that is written to `argo_processed.csv` and handed to the loader. -/
inductive PipelineResult where
  | exited (msg : String)
  | loaded (combined : List NcRecord)
deriving DecidableEq

/-- The column rename of `data.py` line 143:
`{"temp": "temperature", "psal": "salinity"}`. -/
def renameKey (k : String) : String :=
  if k = "temp" then "temperature" else if k = "psal" then "salinity" else k

/-- Apply the column rename to one record. -/
def renameColumns (r : NcRecord) : NcRecord :=
  r.map (fun p => (renameKey p.1, p.2))

/-- Lines 131-146 of `data.py`: if no file produced rows, print the message
and `exit()` before the CSV write and the loader; otherwise concatenate
and rename. -/
def pipeline_tail (results : List (Except String NcDataset))
    (vars_to_keep : List String) : PipelineResult :=
  let all_rows := flatten_all results vars_to_keep
  if all_rows.isEmpty then
    PipelineResult.exited "No data was successfully processed. Exiting."
  else .loaded (all_rows.flatten.map renameColumns)

/-- Concrete dataset for witnesses: one profile, two levels; at level 0 the
TEMP flag is `'4'` (rejected) while PSAL's is `'2'` (accepted). -/
def dsW : NcDataset :=
  { platform_number := "1902671"
    juld := fun _ => 26737
    latitude := fun _ => 0
    longitude := fun _ => 70
    pres := fun _ j => Int.ofNat (10 * j)
    n_prof := 1
    n_levels := 2
    hasVar := fun s => s = "TEMP_QC" || s = "PSAL_QC" || s = "TEMP" || s = "PSAL"
    dataVal := fun s _ _ => if s = "TEMP" then 25 else 35
    qcVal := fun s _ j => if s = "TEMP_QC" then (if j = 0 then '4' else '1') else '2' }

/-- Concrete dataset for witnesses: value arrays present but no QC arrays
at all. -/
def dsNoQC : NcDataset :=
  { platform_number := "1902671"
    juld := fun _ => 26737
    latitude := fun _ => 0
    longitude := fun _ => 70
    pres := fun _ j => Int.ofNat (10 * j)
    n_prof := 2
    n_levels := 3
    hasVar := fun s => s = "TEMP" || s = "PSAL"
    dataVal := fun s _ _ => if s = "TEMP" then 25 else 35
    qcVal := fun _ _ _ => '1' }

end Argo

namespace Argo

/-- C2: a catalog row is selected by `filtered` iff it is in the catalog and
its latitude, longitude and date lie inside the six inclusive bounds,
conjunctively; and when no row matches, the result is the empty list. -/
theorem filtered_mem_iff (p : FilterParams) (df_index : List CatalogRow) :
    (∀ r : CatalogRow, r ∈ filtered p df_index ↔
      r ∈ df_index ∧
      p.lat_min ≤ r.latitude ∧ r.latitude ≤ p.lat_max ∧
      p.lon_min ≤ r.longitude ∧ r.longitude ≤ p.lon_max ∧
      p.start_date ≤ r.date ∧ r.date ≤ p.end_date) ∧
    ((∀ r ∈ df_index, inWindow p r = false) → filtered p df_index = []) := by
  constructor
  · intro r
    simp only [filtered, List.mem_filter, inWindow, Bool.and_eq_true, decide_eq_true_eq,
      and_assoc]
  · intro h
    simp only [filtered, List.filter_eq_nil_iff]
    intro r hr
    simp [h r hr]

/-- Witness for C2: with the source's default bounds, a boundary row
(lat = 5 = lat_max, lon = 60 = lon_min, date = end_date) is selected, and a
catalog whose only row lies outside the box filters to the empty list. -/
theorem filtered_mem_iff_witness :
    (⟨"a.nc", 5, 60, 19447⟩ : CatalogRow) ∈
      filtered defaultParams [⟨"a.nc", 5, 60, 19447⟩] ∧
    filtered defaultParams [⟨"b.nc", 10, 70, 19430⟩] = [] := by
  constructor
  · exact ((filtered_mem_iff defaultParams [⟨"a.nc", 5, 60, 19447⟩]).1
      ⟨"a.nc", 5, 60, 19447⟩).2 (by refine ⟨by decide, ?_, ?_, ?_, ?_, ?_, ?_⟩ <;> decide)
  · exact (filtered_mem_iff defaultParams [⟨"b.nc", 10, 70, 19430⟩]).2
      (by intro r hr; simp only [List.mem_singleton] at hr; subst hr; decide)

theorem FS.exists_write_ne (fs : FS) (p q : String) (c : List Nat) (h : q ≠ p) :
    (fs.write p c).exists q = fs.exists q := by
  simp [FS.write, FS.exists, h]

theorem runRetriever_list_eq (fs : FS) (entries : List Entry)
    (hd : entries.Pairwise (fun a b => a.dest ≠ b.dest)) :
    (runRetriever fs entries).2 = (entries.filter (keptEntry fs)).map (·.dest) := by
  induction entries generalizing fs with
  | nil => rfl
  | cons e rest ih =>
    have h1 : ∀ b ∈ rest, e.dest ≠ b.dest := (List.pairwise_cons.1 hd).1
    have h2 : rest.Pairwise (fun a b => a.dest ≠ b.dest) := (List.pairwise_cons.1 hd).2
    have congrFS : ∀ (c : List Nat),
        (rest.filter (keptEntry (fs.write e.dest c))).map (·.dest) =
        (rest.filter (keptEntry fs)).map (·.dest) := by
      intro c
      congr 1
      apply List.filter_congr
      intro b hb
      simp [keptEntry, FS.exists_write_ne fs e.dest b.dest c (h1 b hb).symm]
    by_cases hfs : fs.exists e.dest = true
    · simp only [runRetriever, hfs, if_true, List.filter_cons, keptEntry, hfs,
        Bool.true_or, List.map_cons]
      exact congrArg (e.dest :: ·) (ih fs h2)
    · have hfs' : fs.exists e.dest = false := by simpa using hfs
      cases hftp : e.ftp with
      | ok c =>
        simp only [runRetriever, hfs', Bool.false_eq_true, if_false, download_file_ftp,
          List.filter_cons, keptEntry, hfs', hftp, Bool.false_or, List.map_cons]
        exact congrArg (e.dest :: ·) ((ih (fs.write e.dest c) h2).trans (congrFS c))
      | connectFail =>
        simp only [runRetriever, hfs', Bool.false_eq_true, if_false, download_file_ftp,
          List.filter_cons, keptEntry, hfs', hftp, Bool.false_or]
        exact ih fs h2
      | transferFail w =>
        simp only [runRetriever, hfs', Bool.false_eq_true, if_false, download_file_ftp,
          List.filter_cons, keptEntry, hfs', hftp, Bool.false_or]
        exact (ih (fs.write e.dest w) h2).trans (congrFS w)

/-- C3: when every entry's destination file is already present, the
retriever changes no local file, re-downloads nothing, and the downstream
file list is exactly the entries' destination paths; re-running from the
resulting filesystem reproduces the same result. -/
theorem runRetriever_all_present (fs : FS) (entries : List Entry)
    (h : ∀ e ∈ entries, fs.exists e.dest = true) :
    runRetriever fs entries = (fs, entries.map (·.dest)) ∧
    runRetriever (runRetriever fs entries).1 entries = runRetriever fs entries := by
  have main : runRetriever fs entries = (fs, entries.map (·.dest)) := by
    induction entries with
    | nil => rfl
    | cons e rest ih =>
      have he : fs.exists e.dest = true := h e (by simp)
      have hrest := ih (fun e' he' => h e' (List.mem_cons_of_mem e he'))
      simp [runRetriever, he, hrest]
  exact ⟨main, by rw [main]; exact main.symm ▸ main⟩

/-- Witness for C3: a filesystem already holding the one entry's
destination file is returned unchanged and the file list still names it. -/
theorem runRetriever_all_present_witness :
    runRetriever fsWithA [⟨"argo_data_downloads/a.nc", .connectFail⟩] =
      (fsWithA, ["argo_data_downloads/a.nc"]) :=
  (runRetriever_all_present fsWithA [⟨"argo_data_downloads/a.nc", .connectFail⟩]
    (by intro e he; simp only [List.mem_singleton] at he; subst he
        simp [fsWithA, FS.exists])).1

/-- C7: with pairwise-distinct destination paths, the downstream file list
is exactly the destinations of the entries that are already present or
whose download succeeds — an entry whose download fails is skipped (its
path absent from the list) while the remaining entries are still
processed. -/
theorem runRetriever_skips_failures (fs : FS) (entries : List Entry)
    (hd : entries.Pairwise (fun a b => a.dest ≠ b.dest)) :
    (runRetriever fs entries).2 = (entries.filter (keptEntry fs)).map (·.dest) ∧
    ∀ e ∈ entries, keptEntry fs e = false → e.dest ∉ (runRetriever fs entries).2 := by
  refine ⟨runRetriever_list_eq fs entries hd, ?_⟩
  intro e he hke hmem
  rw [runRetriever_list_eq fs entries hd] at hmem
  simp only [List.mem_map, List.mem_filter] at hmem
  obtain ⟨e', ⟨he', hke'⟩, hdest⟩ := hmem
  have : e' = e := by
    by_contra hne
    rcases List.mem_iff_get.1 he with ⟨i, hi⟩
    rcases List.mem_iff_get.1 he' with ⟨j, hj⟩
    have hij : (i : Nat) ≠ (j : Nat) := by
      intro hc; exact hne (by rw [← hj, ← hi]; congr 1; exact Fin.ext hc.symm)
    rcases Nat.lt_or_ge i j with hlt | hge
    · exact (List.pairwise_iff_get.1 hd i j hlt) (by rw [hi, hj]; exact hdest.symm)
    · have hlt' : (j : Nat) < i := Nat.lt_of_le_of_ne hge (fun hc => hij hc.symm)
      exact (List.pairwise_iff_get.1 hd j i hlt') (by rw [hi, hj]; exact hdest)
  rw [this, hke] at hke'
  exact Bool.false_ne_true hke'

/-- Witness for C7: first entry downloads successfully, second entry's
download fails; the file list contains exactly the first destination. -/
theorem runRetriever_skips_failures_witness :
    (runRetriever fsEmpty [⟨"a.nc", .ok [1]⟩, ⟨"b.nc", .connectFail⟩]).2 =
      ([⟨"a.nc", .ok [1]⟩, ⟨"b.nc", .connectFail⟩].filter (keptEntry fsEmpty)).map
        (·.dest) ∧
    ∀ e ∈ [(⟨"a.nc", .ok [1]⟩ : Entry), ⟨"b.nc", .connectFail⟩],
      keptEntry fsEmpty e = false →
      e.dest ∉ (runRetriever fsEmpty [⟨"a.nc", .ok [1]⟩, ⟨"b.nc", .connectFail⟩]).2 :=
  runRetriever_skips_failures fsEmpty [⟨"a.nc", .ok [1]⟩, ⟨"b.nc", .connectFail⟩]
    (by simp)

/-- C10: a transfer that fails mid-download returns failure and the path is
excluded from this run's list, yet a partial file is left at the
destination; a subsequent run finds the file existing and, without any
integrity check, keeps the filesystem unchanged and lists the path. -/
theorem download_not_atomic (fs : FS) (e : Entry) (w : List Nat)
    (h1 : fs.exists e.dest = false) (h2 : e.ftp = .transferFail w) :
    (download_file_ftp fs e.ftp e.dest).1 = false ∧
    (runRetriever fs [e]).2 = [] ∧
    (runRetriever fs [e]).1.exists e.dest = true ∧
    (runRetriever fs [e]).1.read e.dest = some w ∧
    ∀ e₂ : Entry, e₂.dest = e.dest →
      runRetriever (runRetriever fs [e]).1 [e₂] =
        ((runRetriever fs [e]).1, [e.dest]) := by
  have hrun : runRetriever fs [e] = (fs.write e.dest w, []) := by
    simp [runRetriever, h1, h2, download_file_ftp]
  have hex : (fs.write e.dest w).exists e.dest = true := by
    simp [FS.write, FS.exists]
  refine ⟨by simp [download_file_ftp, h2], by simp [hrun], ?_, ?_, ?_⟩
  · rw [hrun]; exact hex
  · rw [hrun]; simp [FS.write, FS.read]
  · intro e₂ hdest
    rw [hrun]
    simp [runRetriever, hdest, hex]

/-- Witness for C10: a mid-transfer failure with two bytes written leaves a
two-byte file that the next run accepts as already retrieved. -/
theorem download_not_atomic_witness :
    (download_file_ftp fsEmpty (Entry.mk "a.nc" (.transferFail [9, 9])).ftp
        "a.nc").1 = false ∧
    (runRetriever fsEmpty [⟨"a.nc", .transferFail [9, 9]⟩]).2 = [] ∧
    (runRetriever fsEmpty [⟨"a.nc", .transferFail [9, 9]⟩]).1.exists "a.nc" = true ∧
    (runRetriever fsEmpty [⟨"a.nc", .transferFail [9, 9]⟩]).1.read "a.nc" =
      some [9, 9] ∧
    ∀ e₂ : Entry, e₂.dest = "a.nc" →
      runRetriever (runRetriever fsEmpty [⟨"a.nc", .transferFail [9, 9]⟩]).1 [e₂] =
        ((runRetriever fsEmpty [⟨"a.nc", .transferFail [9, 9]⟩]).1, ["a.nc"]) :=
  download_not_atomic fsEmpty ⟨"a.nc", .transferFail [9, 9]⟩ [9, 9] rfl rfl

/-- C8: when the agent's response has no `"output"` value the displayed
answer is exactly the fallback string, and when it has one, that value is
displayed. -/
theorem displayedAnswer_spec (response : List (String × String)) :
    (response.lookup "output" = none →
      displayedAnswer response = "Sorry, I couldn't find an answer.") ∧
    (∀ v : String, response.lookup "output" = some v →
      displayedAnswer response = v) := by
  constructor
  · intro h; simp [displayedAnswer, h, fallbackAnswer]
  · intro v h; simp [displayedAnswer, h]

/-- Witness for C8: the empty response displays the fallback, and a response
carrying an output value displays that value. -/
theorem displayedAnswer_spec_witness :
    displayedAnswer [] = "Sorry, I couldn't find an answer." ∧
    displayedAnswer [("output", "42 floats")] = "42 floats" := by
  constructor
  · exact (displayedAnswer_spec []).1 rfl
  · exact (displayedAnswer_spec [("output", "42 floats")]).2 "42 floats" rfl

/-- C4: running the loader twice in succession with the same CSV leaves
`argo_profiles` holding exactly the second run's file minus its header line
(never a union of both runs), because every run truncates the table before
its bulk load — a single run from any prior state already yields exactly
the file minus its header. -/
theorem runLoader_twice (s : MySQLState) (csvLines : List CsvRow) :
    (runLoader (runLoader s csvLines) csvLines).rows = csvLines.drop 1 ∧
    (runLoader s csvLines).rows = csvLines.drop 1 := by
  constructor <;> rfl

theorem dictInsert_fresh (r : NcRecord) (k : String) (v : FieldValue)
    (h : k ∉ r.map Prod.fst) : dictInsert r k v = r ++ [(k, v)] := by
  induction r with
  | nil => rfl
  | cons a t ih =>
    obtain ⟨k', v'⟩ := a
    simp only [List.map_cons, List.mem_cons, not_or] at h
    have hne : ¬(k' = k) := fun hc => h.1 hc.symm
    simp only [dictInsert, if_neg hne, List.cons_append]
    exact congrArg (List.cons (k', v')) (ih h.2)

theorem foldl_build (ds : NcDataset) (i j : Nat) :
    ∀ (vars : List String) (acc : NcRecord),
    (∀ v ∈ vars, pyLower v ∉ acc.map Prod.fst) →
    ((vars.map pyLower).Nodup) →
    vars.foldl
      (fun record var =>
        if varAccepted ds var i j then
          dictInsert record (pyLower var) (.num (ds.dataVal var i j))
        else record) acc = acc ++ extraPart ds vars i j := by
  intro vars
  induction vars with
  | nil => intro acc _ _; simp [extraPart]
  | cons u rest ih =>
    intro acc hfresh hnodup
    simp only [List.map_cons, List.nodup_cons] at hnodup
    by_cases hu : varAccepted ds u i j
    · have hin : pyLower u ∉ acc.map Prod.fst := hfresh u (by simp)
      have hacc : ∀ v ∈ rest, pyLower v ∉
          (acc ++ [(pyLower u, FieldValue.num (ds.dataVal u i j))]).map Prod.fst := by
        intro v hv
        simp only [List.map_append, List.mem_append, not_or, List.map_cons,
          List.map_nil, List.mem_singleton]
        exact ⟨hfresh v (List.mem_cons_of_mem u hv),
          fun hc => hnodup.1 (hc ▸ List.mem_map_of_mem pyLower hv)⟩
      simp only [List.foldl_cons, if_pos hu, dictInsert_fresh acc _ _ hin]
      rw [ih _ hacc hnodup.2]
      simp [extraPart, List.filter_cons, hu, List.append_assoc]
    · simp only [List.foldl_cons, if_neg hu]
      rw [ih acc (fun v hv => hfresh v (by simp [hv])) hnodup.2]
      simp only [extraPart, List.filter_cons]
      have : varAccepted ds u i j = false := by simpa using hu
      simp [this]

theorem buildRecord_eq (ds : NcDataset) (vars : List String) (i j : Nat)
    (hfresh : ∀ v ∈ vars, pyLower v ∉ mandatoryKeys)
    (hnodup : (vars.map pyLower).Nodup) :
    buildRecord ds vars i j = baseRecord ds i j ++ extraPart ds vars i j := by
  have hkeys : (baseRecord ds i j).map Prod.fst = mandatoryKeys := rfl
  exact foldl_build ds i j vars (baseRecord ds i j)
    (fun v hv => hkeys ▸ hfresh v hv) hnodup

theorem mem_process_open (ds : NcDataset) (vars : List String) (r : NcRecord) :
    r ∈ process_open ds vars ↔
    ∃ i, i < ds.n_prof ∧ ∃ j, j < ds.n_levels ∧
      5 < (buildRecord ds vars i j).length ∧ r = buildRecord ds vars i j := by
  constructor
  · intro hr
    obtain ⟨l, hl, hrl⟩ := List.mem_flatten.1 hr
    obtain ⟨i, hi, rfl⟩ := List.mem_map.1 hl
    obtain ⟨hm, hlen⟩ := List.mem_filter.1 hrl
    obtain ⟨j, hj, rfl⟩ := List.mem_map.1 hm
    exact ⟨i, List.mem_range.1 hi, j, List.mem_range.1 hj, by simpa using hlen, rfl⟩
  · rintro ⟨i, hi, j, hj, hlen, rfl⟩
    refine List.mem_flatten.2 ⟨_, List.mem_map.2 ⟨i, List.mem_range.2 hi, rfl⟩, ?_⟩
    refine List.mem_filter.2 ⟨List.mem_map.2 ⟨j, List.mem_range.2 hj, rfl⟩, ?_⟩
    simpa using hlen

theorem lookup_append_left (l₁ l₂ : NcRecord) (k : String)
    (h : k ∉ l₁.map Prod.fst) : (l₁ ++ l₂).lookup k = l₂.lookup k := by
  induction l₁ with
  | nil => rfl
  | cons a t ih =>
    obtain ⟨k', v'⟩ := a
    simp only [List.map_cons, List.mem_cons, not_or] at h
    have hbeq : (k == k') = false := beq_eq_false_iff_ne.2 h.1
    simp [List.lookup, hbeq, ih h.2]

theorem lookup_eq_none_of_not_mem (l : NcRecord) (k : String)
    (h : k ∉ l.map Prod.fst) : l.lookup k = none := by
  induction l with
  | nil => rfl
  | cons a t ih =>
    obtain ⟨k', v'⟩ := a
    simp only [List.map_cons, List.mem_cons, not_or] at h
    have hbeq : (k == k') = false := beq_eq_false_iff_ne.2 h.1
    simp [List.lookup, hbeq, ih h.2]

theorem extraPart_keys (ds : NcDataset) (vars : List String) (i j : Nat) :
    (extraPart ds vars i j).map Prod.fst =
      (vars.filter (fun v => varAccepted ds v i j)).map pyLower := by
  simp [extraPart, List.map_map]

theorem extraPart_keys_sub (ds : NcDataset) (vars : List String) (i j : Nat) :
    ∀ k ∈ (extraPart ds vars i j).map Prod.fst, k ∈ vars.map pyLower := by
  intro k hk
  rw [extraPart_keys] at hk
  obtain ⟨v, hv, rfl⟩ := List.mem_map.1 hk
  exact List.mem_map_of_mem pyLower (List.mem_of_mem_filter hv)

theorem extraPart_lookup (ds : NcDataset) (i j : Nat) (v : String) :
    ∀ (vars : List String), (vars.map pyLower).Nodup → v ∈ vars →
    (extraPart ds vars i j).lookup (pyLower v) =
      (if varAccepted ds v i j then some (FieldValue.num (ds.dataVal v i j))
       else none) := by
  intro vars
  induction vars with
  | nil => intro _ hv; cases hv
  | cons u rest ih =>
    intro hnodup hv
    simp only [List.map_cons, List.nodup_cons] at hnodup
    rcases List.mem_cons.1 hv with rfl | hvr
    · by_cases hu : varAccepted ds v i j
      · simp [extraPart, List.filter_cons, hu, List.lookup]
      · have hnone : (extraPart ds rest i j).lookup (pyLower v) = none := by
          apply lookup_eq_none_of_not_mem
          intro hc
          exact hnodup.1 (extraPart_keys_sub ds rest i j (pyLower v) hc)
        have hu' : varAccepted ds v i j = false := by simpa using hu
        simp [extraPart, List.filter_cons, hu', if_neg hu] at hnone ⊢
        exact hnone
    · have hne : (pyLower v == pyLower u) = false :=
        beq_eq_false_iff_ne.2
          (fun hc => hnodup.1 (hc ▸ List.mem_map_of_mem pyLower hvr))
      by_cases hu : varAccepted ds u i j
      · have : extraPart ds (u :: rest) i j =
            (pyLower u, FieldValue.num (ds.dataVal u i j)) :: extraPart ds rest i j := by
          simp [extraPart, List.filter_cons, hu]
        rw [this]
        simp only [List.lookup, hne]
        exact ih hnodup.2 hvr
      · have hu' : varAccepted ds u i j = false := by simpa using hu
        have : extraPart ds (u :: rest) i j = extraPart ds rest i j := by
          simp [extraPart, List.filter_cons, hu']
        rw [this]
        exact ih hnodup.2 hvr

theorem buildRecord_length (ds : NcDataset) (vars : List String) (i j : Nat)
    (hfresh : ∀ v ∈ vars, pyLower v ∉ mandatoryKeys)
    (hnodup : (vars.map pyLower).Nodup) :
    (buildRecord ds vars i j).length =
      5 + (vars.filter (fun v => varAccepted ds v i j)).length := by
  rw [buildRecord_eq ds vars i j hfresh hnodup]
  simp only [List.length_append, baseRecord, extraPart, List.length_map,
    List.length_cons, List.length_nil]

theorem buildRecord_lookup (ds : NcDataset) (vars : List String) (i j : Nat)
    (hfresh : ∀ v ∈ vars, pyLower v ∉ mandatoryKeys)
    (hnodup : (vars.map pyLower).Nodup) (v : String) (hv : v ∈ vars) :
    (buildRecord ds vars i j).lookup (pyLower v) =
      (if varAccepted ds v i j then some (FieldValue.num (ds.dataVal v i j))
       else none) := by
  rw [buildRecord_eq ds vars i j hfresh hnodup,
    lookup_append_left _ _ _
      (show pyLower v ∉ (baseRecord ds i j).map Prod.fst from hfresh v hv),
    extraPart_lookup ds i j v vars hnodup hv]

theorem buildRecord_gt5_iff (ds : NcDataset) (vars : List String) (i j : Nat)
    (hfresh : ∀ v ∈ vars, pyLower v ∉ mandatoryKeys)
    (hnodup : (vars.map pyLower).Nodup) :
    5 < (buildRecord ds vars i j).length ↔
      ∃ v ∈ vars, varAccepted ds v i j = true := by
  rw [buildRecord_length ds vars i j hfresh hnodup]
  constructor
  · intro h
    by_contra hnone
    push_neg at hnone
    have hfil : vars.filter (fun v => varAccepted ds v i j) = [] :=
      List.filter_eq_nil_iff.2 (fun v hv => by simpa using hnone v hv)
    rw [hfil] at h
    simp at h
  · rintro ⟨v, hv, hacc⟩
    have hm : v ∈ vars.filter (fun v => varAccepted ds v i j) :=
      List.mem_filter.2 ⟨hv, by simpa using hacc⟩
    have hp := List.length_pos_of_mem hm
    omega

/-- C1: for every opened profile file and in-range (profile, level) pair —
with requested variable names that stay distinct and clear of the five
mandatory keys after lowercasing, as the default `["TEMP", "PSAL"]` do —
the pair's record is produced iff some requested variable's QC flag is
`b'1'` or `b'2'`; an accepted variable appears in the record with its
value, a non-accepted variable is entirely absent, and every produced
record has strictly more than the five mandatory fields. -/
theorem process_qc_iff (ds : NcDataset) (vars : List String)
    (hfresh : ∀ v ∈ vars, pyLower v ∉ mandatoryKeys)
    (hnodup : (vars.map pyLower).Nodup)
    (i j : Nat) (hi : i < ds.n_prof) (hj : j < ds.n_levels) :
    (buildRecord ds vars i j ∈ process_open ds vars ↔
      ∃ v ∈ vars, varAccepted ds v i j = true) ∧
    (∀ v ∈ vars, varAccepted ds v i j = true →
      (buildRecord ds vars i j).lookup (pyLower v) =
        some (.num (ds.dataVal v i j))) ∧
    (∀ v ∈ vars, varAccepted ds v i j = false →
      (buildRecord ds vars i j).lookup (pyLower v) = none) ∧
    (∀ r ∈ process_open ds vars, 5 < r.length) := by
  refine ⟨?_, ?_, ?_, ?_⟩
  · constructor
    · intro hmem
      obtain ⟨i', hi', j', hj', hlen', heq⟩ := (mem_process_open ds vars _).1 hmem
      exact (buildRecord_gt5_iff ds vars i j hfresh hnodup).1 (heq ▸ hlen')
    · intro hex
      exact (mem_process_open ds vars _).2
        ⟨i, hi, j, hj, (buildRecord_gt5_iff ds vars i j hfresh hnodup).2 hex, rfl⟩
  · intro v hv hacc
    rw [buildRecord_lookup ds vars i j hfresh hnodup v hv, if_pos hacc]
  · intro v hv hacc
    rw [buildRecord_lookup ds vars i j hfresh hnodup v hv, if_neg (by simp [hacc])]
  · intro r hr
    obtain ⟨i', hi', j', hj', hlen', heq⟩ := (mem_process_open ds vars r).1 hr
    exact heq ▸ hlen'

/-- Witness for C1: on the concrete dataset whose (0,0) flags are TEMP QC
`'4'` and PSAL QC `'2'`, the record is produced, carries `psal` with its
value, and has no `temp` key. -/
theorem process_qc_iff_witness :
    buildRecord dsW defaultVars 0 0 ∈ process_open dsW defaultVars ∧
    (buildRecord dsW defaultVars 0 0).lookup (pyLower "PSAL") =
      some (FieldValue.num 35) ∧
    (buildRecord dsW defaultVars 0 0).lookup (pyLower "TEMP") = none := by
  have h := process_qc_iff dsW defaultVars (by decide) (by decide) 0 0
    (by decide) (by decide)
  exact ⟨h.1.2 ⟨"PSAL", by decide, by decide⟩,
    (h.2.1 "PSAL" (by decide) (by decide)).trans (by decide),
    h.2.2.1 "TEMP" (by decide) (by decide)⟩

/-- C9: a requested variable whose companion QC array (`var + "_QC"`) is
absent from the dataset appears in no record of the file; when no
requested variable has a QC array, the file yields zero records even
though the value arrays are read without error. -/
theorem process_qc_missing (ds : NcDataset) (vars : List String)
    (hfresh : ∀ v ∈ vars, pyLower v ∉ mandatoryKeys)
    (hnodup : (vars.map pyLower).Nodup) :
    (∀ v ∈ vars, ds.hasVar (v ++ "_QC") = false →
      ∀ r ∈ process_open ds vars, r.lookup (pyLower v) = none) ∧
    ((∀ v ∈ vars, ds.hasVar (v ++ "_QC") = false) →
      process_open ds vars = []) := by
  constructor
  · intro v hv hqc r hr
    obtain ⟨i', hi', j', hj', hlen', heq⟩ := (mem_process_open ds vars r).1 hr
    rw [heq, buildRecord_lookup ds vars i' j' hfresh hnodup v hv,
      if_neg (by simp [varAccepted, hqc])]
  · intro hall
    rw [List.eq_nil_iff_forall_not_mem]
    intro r hr
    obtain ⟨i', hi', j', hj', hlen', heq⟩ := (mem_process_open ds vars r).1 hr
    have hfil : vars.filter (fun v => varAccepted ds v i' j') = [] :=
      List.filter_eq_nil_iff.2
        (fun v hv => by simp [varAccepted, hall v hv])
    rw [buildRecord_length ds vars i' j' hfresh hnodup, hfil] at hlen'
    simp at hlen'

/-- Witness for C9: the concrete dataset with value arrays but no QC arrays
yields zero records. -/
theorem process_qc_missing_witness :
    process_open dsNoQC defaultVars = [] :=
  (process_qc_missing dsNoQC defaultVars (by decide) (by decide)).2 (by decide)

/-- C5: a file whose open/parse raises yields the empty result, and the
per-file loop over the downloaded files simply continues — the run with
the failing file collects the same outputs as the run without it. -/
theorem parse_failure_skipped (e : String) (vars : List String)
    (xs ys : List (Except String NcDataset)) :
    process_nc_file (.error e) vars = [] ∧
    flatten_all (xs ++ .error e :: ys) vars = flatten_all (xs ++ ys) vars := by
  refine ⟨rfl, ?_⟩
  induction xs with
  | nil => simp [flatten_all, process_nc_file]
  | cons x xt ih => simp [flatten_all, ih]

theorem flatten_all_eq_nil (results : List (Except String NcDataset))
    (vars : List String)
    (h : ∀ res ∈ results, process_nc_file res vars = []) :
    flatten_all results vars = [] := by
  induction results with
  | nil => rfl
  | cons res rest ih =>
    have h1 := h res (List.mem_cons_self res rest)
    have h2 := ih (fun r hr => h r (List.mem_cons_of_mem res hr))
    simp [flatten_all, h1, h2]

/-- C6: when every downloaded file flattens to nothing, the script prints
its message and exits before the CSV write and the loader — the pipeline
outcome is the fatal exit and is never the loaded dataset. -/
theorem all_empty_exits (results : List (Except String NcDataset))
    (vars : List String)
    (h : ∀ res ∈ results, process_nc_file res vars = []) :
    pipeline_tail results vars =
      .exited "No data was successfully processed. Exiting." ∧
    ∀ combined, pipeline_tail results vars ≠ PipelineResult.loaded combined := by
  have hnil := flatten_all_eq_nil results vars h
  refine ⟨by simp [pipeline_tail, hnil], ?_⟩
  intro combined
  simp [pipeline_tail, hnil]

/-- Witness for C6: one downloaded file whose parse fails leads to the
fatal exit. -/
theorem all_empty_exits_witness :
    pipeline_tail [Except.error "open failed"] defaultVars =
      .exited "No data was successfully processed. Exiting." :=
  (all_empty_exits [Except.error "open failed"] defaultVars
    (by intro res hres; simp only [List.mem_singleton] at hres
        subst hres; rfl)).1

end Argo
